import Mathlib

/-!
Shallow embedding of the GHSL/Overture comparison pipeline
(src/Solution1.py, src/test.py, src/RA_durham_compare.py).

Geometries relevant to the claims are axis-aligned rectangles
(shapely `box(minx, miny, maxx, maxy)`); coordinates and raster values
are rationals.  Pandas float division (which can produce NaN and
infinities) is embedded as an idealized IEEE value type `FloatVal`.
-/

namespace GHSL

/-- An axis-aligned rectangle, as produced by shapely
`box(minx, miny, maxx, maxy)`. -/
structure Rect where
  minx : ℚ
  miny : ℚ
  maxx : ℚ
  maxy : ℚ
deriving DecidableEq

/-- Planar area of a (well-formed) box, shapely `geometry.area`. -/
def Rect.area (r : Rect) : ℚ :=
  (r.maxx - r.minx) * (r.maxy - r.miny)

/-- Shapely `intersects` for two boxes: closed-set intersection test,
true also on boundary-only contact (corner or edge touching). -/
def Rect.intersects (a b : Rect) : Bool :=
  decide (a.minx ≤ b.maxx) && decide (b.minx ≤ a.maxx) &&
  decide (a.miny ≤ b.maxy) && decide (b.miny ≤ a.maxy)

/-- Intersection box of two boxes (used to speak about the portion of a
footprint lying inside a grid cell). -/
def Rect.inter (a b : Rect) : Rect :=
  ⟨max a.minx b.minx, max a.miny b.miny, min a.maxx b.maxx, min a.maxy b.maxy⟩

/-- `numpy.arange(start, stop, step)` for a positive rational step: the
values `start + i*step` for `i = 0, 1, ...` while they are `< stop`;
the element count is `⌈(stop - start)/step⌉`. -/
def arange (start stop step : ℚ) : List ℚ :=
  (List.range (Int.toNat ⌈(stop - start) / step⌉)).map (fun i : ℕ => start + i * step)

/-- Grid construction of `create_grid` (src/Solution1.py lines 55-76) and
`get_ghsl_grid` (src/test.py lines 9-33): cells
`box(x, y, x + s, y + s)` for `x in arange(minx, maxx, s)` (outer loop)
and `y in arange(miny, maxy, s)` (inner loop).  The cell size `s` is
`30/3600` in Solution1 and the raster resolution in test.py; it is a
parameter here. -/
def create_grid (minx miny maxx maxy s : ℚ) : List Rect :=
  (arange minx maxx s).flatMap
    (fun x => (arange miny maxy s).map (fun y => ⟨x, y, x + s, y + s⟩))

/-- A loaded raster: origin of the top-left corner, square resolution,
row-major pixel values (row 0 at the top), and the no-data sentinel.
Matches the rasterio view of the GHSL tile used by `zonal_stats` calls. -/
structure RasterGrid where
  x0 : ℚ
  ytop : ℚ
  res : ℚ
  data : List (List ℚ)
  nodata : ℚ

/-- Footprint rectangle of pixel `(i, j)` (row `i` from the top,
column `j` from the left) under the raster's affine transform. -/
def pixelRect (r : RasterGrid) (i j : ℕ) : Rect :=
  ⟨r.x0 + j * r.res, r.ytop - (i + 1) * r.res,
   r.x0 + (j + 1) * r.res, r.ytop - i * r.res⟩

/-- All pixels of the raster as `(row, column, value)` triples. -/
def rasterPixels (r : RasterGrid) : List (ℕ × ℕ × ℚ) :=
  r.data.enum.flatMap (fun p => p.2.enum.map (fun q => (p.1, q.1, q.2)))

/-- The pixels counted for a polygon by the all-touched rule: value is
not the no-data sentinel and the pixel footprint intersects the polygon
(boundary contact included).  Modelled from the spec: the
`rasterstats.zonal_stats(..., all_touched=True, nodata=-9999)` collaborator,
whose touch-inclusive rule the spec states as "a raster cell is included
in a polygon's zone if it intersects the polygon at all, including
boundary-only contact". -/
def validTouching (r : RasterGrid) (g : Rect) : List (ℕ × ℕ × ℚ) :=
  (rasterPixels r).filter
    (fun p => (p.2.2 != r.nodata) && (pixelRect r p.1 p.2.1).intersects g)

/-- Modelled from the spec: the per-polygon `sum` statistic of
`rasterstats.zonal_stats` — the sum of the valid touched pixel values,
`none` when no valid pixel touches the polygon (rasterstats reports a
null sum then). -/
def zonalSumOpt (r : RasterGrid) (g : Rect) : Option ℚ :=
  if (validTouching r g).isEmpty then none
  else some ((validTouching r g).map (fun p => p.2.2)).sum

/-- Attribute columns of a dataframe row, as (column name, value) pairs. -/
abbrev Attrs := List (String × ℚ)

/-- Pandas column assignment `df[k] = v` for one row: overwrite the column
in place when it exists, append it at the end otherwise. -/
def setCol (attrs : Attrs) (k : String) (v : ℚ) : Attrs :=
  if attrs.any (fun p => p.1 == k) then
    attrs.map (fun p => if p.1 == k then (k, v) else p)
  else attrs ++ [(k, v)]

/-- `calculate_zonal_statistics` (src/Solution1.py lines 79-92, identical in
src/test.py lines 36-49 and src/RA_durham_compare.py lines 47-58 up to the
returned total): per row, the zonal sum with a null result normalized to 0,
stored in the `ghsl_sum` column; rows, geometries and order unchanged. -/
def calculate_zonal_statistics (grid : List (Rect × Attrs)) (raster : RasterGrid) :
    List (Rect × Attrs) :=
  grid.map (fun row => (row.1, setCol row.2 "ghsl_sum" ((zonalSumOpt raster row.1).getD 0)))

/-- The building area a grid cell receives in `calculate_overture_area_in_grid`
(src/Solution1.py lines 95-111; `compare_with_overture` in src/test.py lines
52-68 is identical): `sjoin(..., predicate='intersects')` followed by
`groupby('index_right')['building_area'].sum()` and `fillna(0)` — the sum of
the FULL areas of every footprint intersecting the cell. -/
def vector_area (overture : List Rect) (cell : Rect) : ℚ :=
  ((overture.filter (fun f => f.intersects cell)).map Rect.area).sum

/-- `calculate_overture_area_in_grid` (src/Solution1.py lines 95-111): the
grid with its `area` column, in grid order. -/
def calculate_overture_area_in_grid (overture : List Rect) (grid : List Rect) :
    List (Rect × ℚ) :=
  grid.map (fun c => (c, vector_area overture c))

/-- An idealized IEEE double: a finite rational, an infinity, or NaN.
Pandas arithmetic on float columns follows these semantics. -/
inductive FloatVal where
  | fin (q : ℚ)
  | posInf
  | negInf
  | nan
deriving DecidableEq

/-- IEEE division of two finite values, as pandas performs
`ghsl_sum / area`: `0/0` is NaN, `x/0` is `±∞` for `x ≠ 0`. -/
def fdiv (a b : ℚ) : FloatVal :=
  if b = 0 then
    if a = 0 then .nan else if 0 < a then .posInf else .negInf
  else .fin (a / b)

/-- Multiplication by the positive constant 100 (`* 100`). -/
def fmul100 : FloatVal → FloatVal
  | .fin q => .fin (q * 100)
  | .posInf => .posInf
  | .negInf => .negInf
  | .nan => .nan

/-- `replace([np.inf, -np.inf], np.nan)` on one value. -/
def replaceInf : FloatVal → FloatVal
  | .posInf => .nan
  | .negInf => .nan
  | v => v

/-- `fillna(0)` on one value. -/
def fillna0 : FloatVal → FloatVal
  | .nan => .fin 0
  | v => v

/-- One row of `calculate_precision_ratio` (src/Solution1.py lines 115-119,
identical in src/test.py lines 71-75): `(ghsl_sum / area) * 100`, then
infinities replaced by NaN and NaN filled with 0. -/
def precisionRatioRow (row : ℚ × ℚ) : FloatVal :=
  fillna0 (replaceInf (fmul100 (fdiv row.1 row.2)))

/-- `calculate_precision_ratio` over the whole column: rows are
`(ghsl_sum, area)` pairs, output is the `precision_ratio` column. -/
def calculate_precision_ratio (rows : List (ℚ × ℚ)) : List FloatVal :=
  rows.map precisionRatioRow

/-- A vector dataframe for the CRS claims: a CRS identifier and the
geometries, each a list of coordinate points. -/
structure GeoDataFrame where
  crs : String
  geoms : List (List (ℚ × ℚ))

/-- Modelled from the spec: geopandas `to_crs` delegating to a pyproj
transformer `T`; for identical source and target CRS the transformation is
the identity ("If source and target CRS are identical, this is a no-op"). -/
def to_crs (T : String → String → ℚ × ℚ → ℚ × ℚ) (gdf : GeoDataFrame)
    (target : String) : GeoDataFrame :=
  { crs := target,
    geoms := gdf.geoms.map
      (List.map (fun p => if gdf.crs = target then p else T gdf.crs target p)) }

/-- `reproject_overture_to_raster` (src/Solution1.py lines 49-52,
src/RA_durham_compare.py lines 41-44): a direct call to `to_crs`. -/
def reproject_overture_to_raster (T : String → String → ℚ × ℚ → ℚ × ℚ)
    (overture_gdf : GeoDataFrame) (raster_crs : String) : GeoDataFrame :=
  to_crs T overture_gdf raster_crs

/-- `download_overture_data` of src/Solution1.py lines 10-32, over the
state `fileExists` of `os.path.exists(output_file)`.  Returns whether the
external fetch (`subprocess.run([overturemaps, download, ...])`) ran, and
the returned path: when the file exists the fetch is skipped. -/
def download_overture_data (fileExists : Bool) : Bool × String :=
  if fileExists then (false, "durham_buildings.geojson")
  else (true, "durham_buildings.geojson")

/-- `download_overture_data` of src/RA_durham_compare.py lines 8-22: no
existence check, the external fetch always runs. -/
def RA_download_overture_data (_fileExists : Bool) : Bool × String :=
  (true, "durham_buildings.geojson")

/-! ## Helper lemmas -/

lemma vector_area_cons (f : Rect) (fps : List Rect) (cell : Rect) :
    vector_area (f :: fps) cell
      = (if f.intersects cell then f.area else 0) + vector_area fps cell := by
  by_cases h : f.intersects cell <;>
    simp [vector_area, List.filter_cons, h]

lemma sum_map_add (g h : Rect → ℚ) (l : List Rect) :
    (l.map (fun c => g c + h c)).sum = (l.map g).sum + (l.map h).sum := by
  induction l with
  | nil => simp
  | cons a l ih => simp [ih]; ring

lemma sum_indicator (f : Rect) (grid : List Rect) :
    (grid.map (fun c => if f.intersects c then f.area else 0)).sum
      = f.area * ((grid.countP (fun c => f.intersects c) : ℕ) : ℚ) := by
  induction grid with
  | nil => simp
  | cons c grid ih =>
    by_cases h : f.intersects c
    · simp only [List.map_cons, List.sum_cons, List.countP_cons, h, if_true, ih]
      push_cast
      ring
    · simp only [List.map_cons, List.sum_cons, List.countP_cons, h, if_false, ih]
      simp [h]

lemma vector_area_nil (cell : Rect) : vector_area [] cell = 0 := rfl

lemma sum_map_zero (l : List Rect) : (l.map (fun _ => (0 : ℚ))).sum = 0 := by
  induction l with
  | nil => rfl
  | cons a l ih => simp [ih]

lemma sum_vector_area (overture grid : List Rect) :
    (grid.map (vector_area overture)).sum
      = (overture.map
          (fun f => f.area * ((grid.countP (fun c => f.intersects c) : ℕ) : ℚ))).sum := by
  induction overture with
  | nil =>
    rw [List.map_congr_left (fun c _ => vector_area_nil c)]
    exact sum_map_zero grid
  | cons f fps ih =>
    have hpt : grid.map (vector_area (f :: fps))
        = grid.map (fun c =>
            (if f.intersects c then f.area else 0) + vector_area fps c) :=
      List.map_congr_left (fun c _ => vector_area_cons f fps c)
    rw [hpt, sum_map_add, sum_indicator, ih, List.map_cons, List.sum_cons]

lemma precisionRatioRow_zero_area (g : ℚ) (hg : 0 ≤ g) :
    precisionRatioRow (g, 0) = FloatVal.fin 0 := by
  rcases eq_or_lt_of_le hg with h | h
  · simp [precisionRatioRow, fdiv, ← h, fmul100, replaceInf, fillna0]
  · simp [precisionRatioRow, fdiv, h.ne', h, fmul100, replaceInf, fillna0]

lemma precisionRatioRow_finite (g a : ℚ) :
    ∃ q : ℚ, precisionRatioRow (g, a) = FloatVal.fin q ∧ (a ≠ 0 → q = g / a * 100) := by
  by_cases ha : a = 0
  · subst ha
    rcases lt_trichotomy g 0 with h | h | h
    · exact ⟨0, by simp [precisionRatioRow, fdiv, h.ne, not_lt_of_lt h,
        fmul100, replaceInf, fillna0], fun hz => absurd rfl hz⟩
    · exact ⟨0, by simp [precisionRatioRow, fdiv, h, fmul100, replaceInf, fillna0],
        fun hz => absurd rfl hz⟩
    · exact ⟨0, by simp [precisionRatioRow, fdiv, h.ne', h, fmul100, replaceInf, fillna0],
        fun hz => absurd rfl hz⟩
  · exact ⟨g / a * 100, by simp [precisionRatioRow, fdiv, ha, fmul100, replaceInf, fillna0],
      fun _ => rfl⟩

/-! ## Claims -/

/-- C1: the claim expects a footprint of area 100 straddling two adjacent
cells (portions 60 and 40) to add 60 to one cell's vector_area and 40 to
the other's.  The code adds the FULL footprint area (100) to both cells:
the spatial join pairs the footprint with each intersecting cell and the
group-by sums the unclipped `building_area`. -/
theorem C1_counterexample :
    calculate_overture_area_in_grid [⟨4, 0, 14, 10⟩] [⟨0, 0, 10, 10⟩, ⟨10, 0, 20, 10⟩]
      = [(⟨0, 0, 10, 10⟩, 100), (⟨10, 0, 20, 10⟩, 100)] ∧
    (Rect.inter ⟨4, 0, 14, 10⟩ ⟨0, 0, 10, 10⟩).area = 60 ∧
    (Rect.inter ⟨4, 0, 14, 10⟩ ⟨10, 0, 20, 10⟩).area = 40 ∧
    (100 : ℚ) ≠ 60 := by with_unfolding_all decide

/-- C1 (amended): a footprint intersecting two grid cells contributes its
full area to each cell's vector_area, not the portion lying in the cell. -/
theorem C1_full_area_added_to_each_cell (f c1 c2 : Rect)
    (h1 : f.intersects c1 = true) (h2 : f.intersects c2 = true) :
    calculate_overture_area_in_grid [f] [c1, c2] = [(c1, f.area), (c2, f.area)] := by
  simp [calculate_overture_area_in_grid, vector_area, h1, h2]

/-- Witness for C1 at the 60/40 straddling footprint. -/
theorem C1_full_area_added_to_each_cell_witness :
    (Rect.intersects ⟨4, 0, 14, 10⟩ ⟨0, 0, 10, 10⟩ = true) ∧
    (Rect.intersects ⟨4, 0, 14, 10⟩ ⟨10, 0, 20, 10⟩ = true) ∧
    calculate_overture_area_in_grid [⟨4, 0, 14, 10⟩] [⟨0, 0, 10, 10⟩, ⟨10, 0, 20, 10⟩]
      = [(⟨0, 0, 10, 10⟩, Rect.area ⟨4, 0, 14, 10⟩),
         (⟨10, 0, 20, 10⟩, Rect.area ⟨4, 0, 14, 10⟩)] :=
  ⟨by with_unfolding_all decide, by with_unfolding_all decide,
    C1_full_area_added_to_each_cell ⟨4, 0, 14, 10⟩ ⟨0, 0, 10, 10⟩ ⟨10, 0, 20, 10⟩
      (by with_unfolding_all decide) (by with_unfolding_all decide)⟩

/-- C2: a grid cell whose area column is 0 gets precision_ratio exactly 0
for any nonnegative ghsl_sum: the division produces NaN (0/0) or +∞
(positive/0), both normalized to 0 by the replace/fillna steps. -/
theorem C2_zero_area_ratio_is_zero (rows : List (ℚ × ℚ)) (i : ℕ) (g a : ℚ)
    (hrow : rows[i]? = some (g, a)) (ha : a = 0) (hg : 0 ≤ g) :
    (calculate_precision_ratio rows)[i]? = some (FloatVal.fin 0) := by
  subst ha
  rw [calculate_precision_ratio, List.getElem?_map, hrow]
  simp [precisionRatioRow_zero_area g hg]

/-- Witness for C2: one row with ghsl_sum 5 and area 0. -/
theorem C2_zero_area_ratio_is_zero_witness :
    ([((5 : ℚ), (0 : ℚ))][0]? = some (5, 0)) ∧ ((0 : ℚ) = 0) ∧ ((0 : ℚ) ≤ 5) ∧
    (calculate_precision_ratio [(5, 0)])[0]? = some (FloatVal.fin 0) :=
  ⟨rfl, rfl, by norm_num,
    C2_zero_area_ratio_is_zero [(5, 0)] 0 5 0 rfl rfl (by norm_num)⟩

/-- C9: on arbitrary finite inputs (negative values and zeros included)
every precision_ratio entry is a finite value — infinities are replaced by
NaN and NaN is filled with 0 — while finite quotients, also negative ones,
are kept as `(ghsl_sum / area) * 100`. -/
theorem C9_ratio_always_finite (rows : List (ℚ × ℚ)) (i : ℕ) (g a : ℚ)
    (hrow : rows[i]? = some (g, a)) :
    ∃ q : ℚ, (calculate_precision_ratio rows)[i]? = some (FloatVal.fin q) ∧
      (a ≠ 0 → q = g / a * 100) := by
  rw [calculate_precision_ratio, List.getElem?_map, hrow]
  obtain ⟨q, hq, himp⟩ := precisionRatioRow_finite g a
  exact ⟨q, by simp [hq], himp⟩

/-- Witness for C9 at a row with negative ghsl_sum and negative area. -/
theorem C9_ratio_always_finite_witness :
    (([((-3 : ℚ), (-2 : ℚ))] : List (ℚ × ℚ))[0]? = some (((-3 : ℚ), (-2 : ℚ)))) ∧
    ∃ q : ℚ, (calculate_precision_ratio [(-3, -2)])[0]? = some (FloatVal.fin q) ∧
      ((-2 : ℚ) ≠ 0 → q = (-3 : ℚ) / (-2) * 100) :=
  ⟨rfl, C9_ratio_always_finite [(-3, -2)] 0 (-3) (-2) rfl⟩

/-- C3: a polygon that intersects no valid (non-no-data) raster pixel keeps
its entry (at its own index) in the zonal output, with the null sum from
zonal statistics normalized to a ghsl_sum of 0. -/
theorem C3_no_valid_cell_gives_zero (grid : List (Rect × Attrs)) (raster : RasterGrid)
    (i : ℕ) (row : Rect × Attrs) (hrow : grid[i]? = some row)
    (hmiss : ∀ p ∈ rasterPixels raster, p.2.2 ≠ raster.nodata →
      (pixelRect raster p.1 p.2.1).intersects row.1 = false)
    (hfresh : row.2.any (fun q => q.1 == "ghsl_sum") = false) :
    (calculate_zonal_statistics grid raster)[i]?
      = some (row.1, row.2 ++ [("ghsl_sum", 0)]) := by
  have hvt : validTouching raster row.1 = [] := by
    rw [validTouching, List.filter_eq_nil_iff]
    intro p hp
    simp only [Bool.and_eq_true, bne_iff_ne, not_and]
    intro hne
    simp [hmiss p hp hne]
  rw [calculate_zonal_statistics, List.getElem?_map, hrow]
  simp [zonalSumOpt, hvt, setCol, hfresh]

/-- Witness for C3: a polygon far away from a one-pixel raster. -/
theorem C3_no_valid_cell_gives_zero_witness :
    (([((⟨100, 100, 101, 101⟩ : Rect), ([] : Attrs))])[0]?
      = some (⟨100, 100, 101, 101⟩, [])) ∧
    (calculate_zonal_statistics [(⟨100, 100, 101, 101⟩, [])]
        ⟨0, 1, 1, [[5]], -9999⟩)[0]?
      = some (⟨100, 100, 101, 101⟩, [("ghsl_sum", 0)]) := by
  refine ⟨rfl, ?_⟩
  have h := C3_no_valid_cell_gives_zero [(⟨100, 100, 101, 101⟩, [])]
    ⟨0, 1, 1, [[5]], -9999⟩ 0 (⟨100, 100, 101, 101⟩, []) rfl
    (by intro p hp hne; fin_cases hp; with_unfolding_all decide) rfl
  simpa using h

/-- C10: zonal aggregation keeps every row's geometry and pre-existing
attribute columns, appends exactly one ghsl_sum value per input polygon
(the polygon's own zonal sum), and preserves row count and order. -/
theorem C10_zonal_preserves_rows (grid : List (Rect × Attrs)) (raster : RasterGrid)
    (hfresh : ∀ row ∈ grid, row.2.any (fun q => q.1 == "ghsl_sum") = false) :
    (calculate_zonal_statistics grid raster).length = grid.length ∧
    ∀ (i : ℕ) (row : Rect × Attrs), grid[i]? = some row →
      (calculate_zonal_statistics grid raster)[i]?
        = some (row.1, row.2 ++ [("ghsl_sum", (zonalSumOpt raster row.1).getD 0)]) := by
  constructor
  · simp [calculate_zonal_statistics]
  · intro i row hrow
    rw [calculate_zonal_statistics, List.getElem?_map, hrow]
    simp [setCol, hfresh row (List.getElem?_mem hrow)]

/-- Witness for C10: a one-pixel raster over a one-row grid carrying a
pre-existing column. -/
theorem C10_zonal_preserves_rows_witness :
    (∀ row ∈ ([((⟨0, 0, 1, 1⟩ : Rect), [("foo", (7 : ℚ))])] : List (Rect × Attrs)),
      row.2.any (fun q => q.1 == "ghsl_sum") = false) ∧
    (calculate_zonal_statistics [(⟨0, 0, 1, 1⟩, [("foo", 7)])] ⟨0, 1, 1, [[5]], -9999⟩).length
      = 1 ∧
    (calculate_zonal_statistics [(⟨0, 0, 1, 1⟩, [("foo", 7)])] ⟨0, 1, 1, [[5]], -9999⟩)[0]?
      = some (⟨0, 0, 1, 1⟩, [("foo", 7)] ++
          [("ghsl_sum", (zonalSumOpt ⟨0, 1, 1, [[5]], -9999⟩ ⟨0, 0, 1, 1⟩).getD 0)]) := by
  have h := C10_zonal_preserves_rows [(⟨0, 0, 1, 1⟩, [("foo", 7)])] ⟨0, 1, 1, [[5]], -9999⟩
    (by intro row hrow; fin_cases hrow; rfl)
  exact ⟨by intro row hrow; fin_cases hrow; rfl, h.1, h.2 0 _ rfl⟩

/-- C4: the claim expects the sum of per-cell vector_area over an exactly
tiling grid to equal the whole-region total footprint area.  It fails: a
footprint of area 100 straddling the two cells of a gap-free, overlap-free
tiling of the region is counted in full in both cells, so the per-cell sums
add to 200 while the region total is 100. -/
theorem C4_counterexample :
    ((calculate_overture_area_in_grid [⟨4, 0, 14, 10⟩]
        [⟨0, 0, 10, 10⟩, ⟨10, 0, 20, 10⟩]).map Prod.snd).sum = 200 ∧
    (([⟨4, 0, 14, 10⟩] : List Rect).map Rect.area).sum = 100 ∧
    (200 : ℚ) ≠ 100 := by with_unfolding_all decide

/-- C4 (amended): the per-cell sums count each footprint once per
intersecting cell, so the equality holds exactly when every footprint
intersects exactly one grid cell. -/
theorem C4_sum_vector_area_eq_total (overture grid : List Rect)
    (h : ∀ f ∈ overture, grid.countP (fun c => f.intersects c) = 1) :
    ((calculate_overture_area_in_grid overture grid).map Prod.snd).sum
      = (overture.map Rect.area).sum := by
  have h1 : (calculate_overture_area_in_grid overture grid).map Prod.snd
      = grid.map (vector_area overture) := by
    simp [calculate_overture_area_in_grid, List.map_map, Function.comp]
  rw [h1, sum_vector_area]
  have h2 : overture.map
      (fun f => f.area * ((grid.countP (fun c => f.intersects c) : ℕ) : ℚ))
      = overture.map Rect.area := by
    refine List.map_congr_left (fun f hf => ?_)
    rw [h f hf]
    simp
  rw [h2]

/-- Witness for C4 at a single footprint lying inside a single cell. -/
theorem C4_sum_vector_area_eq_total_witness :
    (∀ f ∈ ([⟨1, 1, 2, 2⟩] : List Rect),
      ([(⟨0, 0, 10, 10⟩ : Rect)]).countP (fun c => f.intersects c) = 1) ∧
    ((calculate_overture_area_in_grid [⟨1, 1, 2, 2⟩] [⟨0, 0, 10, 10⟩]).map Prod.snd).sum
      = (([⟨1, 1, 2, 2⟩] : List Rect).map Rect.area).sum :=
  ⟨by intro f hf; fin_cases hf; with_unfolding_all decide,
    C4_sum_vector_area_eq_total [⟨1, 1, 2, 2⟩] [⟨0, 0, 10, 10⟩]
      (by intro f hf; fin_cases hf; with_unfolding_all decide)⟩

/-- The 2×2 raster of the C5 scenario: extent (0,0)–(1,1), resolution
0.5°, values [[10,20],[30,40]] (row 0 at the top), no-data −9999. -/
def raster5 : RasterGrid :=
  ⟨0, 1, 1/2, [[10, 20], [30, 40]], -9999⟩

/-- C5: the claim expects the 2×2 grid over (0,0)–(1,1) at cell size 0.5°
to get ZonalResult [10,20,30,40] matching pixel positions.  It fails: the
grid cells are exactly aligned with the pixel boundaries, so under the
touch-inclusive (all-touched) rule every cell touches all four pixels and
every cell's sum is 100 — no cell gets 10. -/
theorem C5_counterexample :
    (create_grid 0 0 1 1 (1/2)).length = 4 ∧
    (calculate_zonal_statistics ((create_grid 0 0 1 1 (1/2)).map (fun c => (c, [])))
        raster5).map Prod.snd
      = [[("ghsl_sum", 100)], [("ghsl_sum", 100)], [("ghsl_sum", 100)], [("ghsl_sum", 100)]] ∧
    (100 : ℚ) ≠ 10 := by with_unfolding_all decide

/-- C5 (amended): grid generation does yield a 2×2 grid of 0.5° cells, but
boundary-aligned cells touch all four pixels under the all-touched rule, so
every cell's ZonalResult is the full raster sum 100 = 10+20+30+40. -/
theorem C5_grid_and_full_sums :
    calculate_zonal_statistics ((create_grid 0 0 1 1 (1/2)).map (fun c => (c, []))) raster5
      = [(⟨0, 0, 1/2, 1/2⟩, [("ghsl_sum", 100)]), (⟨0, 1/2, 1/2, 1⟩, [("ghsl_sum", 100)]),
         (⟨1/2, 0, 1, 1/2⟩, [("ghsl_sum", 100)]), (⟨1/2, 1/2, 1, 1⟩, [("ghsl_sum", 100)])] := by
  with_unfolding_all decide

/-- C6: the claim expects a bounding box that is not an exact multiple of
the cell size to end in truncated partial cells.  It fails: for the box
(0,0)–(1.2,1) at cell size 0.5 the last column's cells run from x = 1 to
x = 1.5, full-size and extending past the extent boundary 1.2. -/
theorem C6_counterexample :
    create_grid 0 0 (6/5) 1 (1/2)
      = [⟨0, 0, 1/2, 1/2⟩, ⟨0, 1/2, 1/2, 1⟩, ⟨1/2, 0, 1, 1/2⟩, ⟨1/2, 1/2, 1, 1⟩,
         ⟨1, 0, 3/2, 1/2⟩, ⟨1, 1/2, 3/2, 1⟩] ∧
    (6/5 : ℚ) < 3/2 ∧ ((3 : ℚ)/2 - 1 = 1/2) := by with_unfolding_all decide

/-- Number of samples of `arange` is positive on a nonempty range. -/
lemma arange_count_pos (start stop step : ℚ) (hs : 0 < step) (h : start < stop) :
    0 < Int.toNat ⌈(stop - start) / step⌉ := by
  have hq : (0 : ℚ) < (stop - start) / step := div_pos (by linarith) hs
  have h1 : 0 < ⌈(stop - start) / step⌉ := Int.ceil_pos.mpr hq
  omega

/-- The `i`-th sample of `arange` is a member. -/
lemma mem_arange (start stop step : ℚ) (i : ℕ)
    (hi : i < Int.toNat ⌈(stop - start) / step⌉) :
    start + i * step ∈ arange start stop step := by
  have hmem : i ∈ List.range (Int.toNat ⌈(stop - start) / step⌉) := List.mem_range.mpr hi
  rw [arange]
  exact List.mem_map_of_mem (fun j : ℕ => start + j * step) hmem

/-- C6 (amended): every generated cell is full-size (width and height
exactly the cell size) — cells are never truncated — and when the x-extent
is not an exact multiple of the cell size the last column extends beyond
the extent boundary. -/
theorem C6_full_size_cells_extend_past_extent (minx miny maxx maxy s : ℚ)
    (hs : 0 < s) (hx : minx < maxx) (hy : miny < maxy)
    (hnm : ¬ ∃ k : ℤ, maxx - minx = k * s) :
    (∀ c ∈ create_grid minx miny maxx maxy s,
        c.maxx - c.minx = s ∧ c.maxy - c.miny = s) ∧
    ∃ c ∈ create_grid minx miny maxx maxy s, maxx < c.maxx := by
  constructor
  · intro c hc
    rw [create_grid, List.mem_flatMap] at hc
    obtain ⟨x, _, hc⟩ := hc
    rw [List.mem_map] at hc
    obtain ⟨y, _, rfl⟩ := hc
    constructor
    · ring
    · ring
  · have hq : (0 : ℚ) < (maxx - minx) / s := div_pos (by linarith) hs
    have hn1 : 0 < ⌈(maxx - minx) / s⌉ := Int.ceil_pos.mpr hq
    have hm1 : 0 < Int.toNat ⌈(maxx - minx) / s⌉ := arange_count_pos _ _ _ hs hx
    refine ⟨⟨minx + (Int.toNat ⌈(maxx - minx) / s⌉ - 1 : ℕ) * s, miny,
        minx + (Int.toNat ⌈(maxx - minx) / s⌉ - 1 : ℕ) * s + s, miny + s⟩, ?_, ?_⟩
    · rw [create_grid, List.mem_flatMap]
      refine ⟨minx + (Int.toNat ⌈(maxx - minx) / s⌉ - 1 : ℕ) * s,
        mem_arange _ _ _ _ (by omega), ?_⟩
      rw [List.mem_map]
      refine ⟨miny, ?_, rfl⟩
      have h0 := mem_arange miny maxy s 0 (arange_count_pos _ _ _ hs hy)
      simpa using h0
    · show maxx < minx + (Int.toNat ⌈(maxx - minx) / s⌉ - 1 : ℕ) * s + s
      have hle : (maxx - minx) / s ≤ (⌈(maxx - minx) / s⌉ : ℚ) := Int.le_ceil _
      have hne : (maxx - minx) / s ≠ (⌈(maxx - minx) / s⌉ : ℚ) := by
        intro heq
        apply hnm
        refine ⟨⌈(maxx - minx) / s⌉, ?_⟩
        field_simp at heq
        linarith
      have hlt : (maxx - minx) / s < (⌈(maxx - minx) / s⌉ : ℚ) := lt_of_le_of_ne hle hne
      have hmul : maxx - minx < (⌈(maxx - minx) / s⌉ : ℚ) * s := (div_lt_iff₀ hs).mp hlt
      have htn : ((Int.toNat ⌈(maxx - minx) / s⌉ : ℕ) : ℚ)
          = (⌈(maxx - minx) / s⌉ : ℚ) := by
        exact_mod_cast congrArg (fun z : ℤ => (z : ℚ)) (Int.toNat_of_nonneg hn1.le)
      have hcast : ((Int.toNat ⌈(maxx - minx) / s⌉ - 1 : ℕ) : ℚ)
          = (⌈(maxx - minx) / s⌉ : ℚ) - 1 := by
        rw [Nat.cast_sub hm1, htn, Nat.cast_one]
      rw [hcast]
      have : ((⌈(maxx - minx) / s⌉ : ℚ) - 1) * s = (⌈(maxx - minx) / s⌉ : ℚ) * s - s := by
        ring
      rw [this]
      linarith

/-- Witness for C6 at the (0,0)–(1.2,1) box with cell size 0.5. -/
theorem C6_full_size_cells_extend_past_extent_witness :
    ((0 : ℚ) < 1/2) ∧ ∃ c ∈ create_grid 0 0 (6/5) 1 (1/2), (6/5 : ℚ) < c.maxx :=
  ⟨by norm_num,
    (C6_full_size_cells_extend_past_extent 0 0 (6/5) 1 (1/2) (by norm_num) (by norm_num)
      (by norm_num)
      (by
        rintro ⟨k, hk⟩
        have h5 : (5 * k : ℤ) = 12 := by
          have hq : (k : ℚ) * 5 = 12 := by
            rw [sub_zero] at hk
            field_simp at hk
            linarith
          exact_mod_cast (by linarith : (5 : ℚ) * (k : ℚ) = 12)
        omega)).2⟩

/-- C7: reprojecting a FeatureCollection to the CRS it already has is a
no-op — geometry coordinates, feature count and order are unchanged (the
same-CRS transformer is the identity). -/
theorem C7_reproject_to_own_crs_is_noop (T : String → String → ℚ × ℚ → ℚ × ℚ)
    (gdf : GeoDataFrame) :
    (reproject_overture_to_raster T gdf gdf.crs).geoms = gdf.geoms ∧
    (reproject_overture_to_raster T gdf gdf.crs).crs = gdf.crs := by
  refine ⟨?_, rfl⟩
  simp [reproject_overture_to_raster, to_crs]

/-- C8: the claim says the download performs no external fetch whenever the
output file exists.  This fails for the src/RA_durham_compare.py variant,
which has no existence check: at state "file exists" it still runs the
fetch. -/
theorem C8_counterexample :
    (RA_download_overture_data true).1 = true ∧
    ¬ (RA_download_overture_data true).1 = false := by decide

/-- C8 (amended): the src/Solution1.py download is idempotent — with the
file present it skips the fetch and returns the same path as a fresh run —
while the src/RA_durham_compare.py variant always performs the fetch
(returning the same path). -/
theorem C8_solution1_idempotent_ra_always_fetches :
    (download_overture_data true).1 = false ∧
    (download_overture_data true).2 = (download_overture_data false).2 ∧
    ∀ e : Bool, (RA_download_overture_data e).1 = true ∧
      (RA_download_overture_data e).2 = (download_overture_data e).2 := by decide

end GHSL
